import Mathlib

set_option maxHeartbeats 1000000

/-!
Shallow embedding of the JARVIS assistant's runtime orchestration layer
(`main.py`, `database.py`, `runtime_control.py`, `config.py`).

Text captured from the recognizer is modelled as `List Char`; Python string
operations (`lower`, `strip`, `rfind`, `in`, slicing) are translated below.
Stateful loops (the TTS worker, the command-dispatch worker, the wake-word
loop, the reminder scanner) are modelled as explicit state-passing functions
over the sequence of events each loop consumes.
-/

/-! ## Python-style string operations on `List Char` -/

/-- Python `str.lower()` (ASCII case folding, which is all the wake words need). -/
def pyLower (s : List Char) : List Char := s.map Char.toLower

/-- Python `str.strip()`: remove leading and trailing whitespace. -/
def pyStrip (s : List Char) : List Char :=
  ((s.dropWhile Char.isWhitespace).reverse.dropWhile Char.isWhitespace).reverse

/-- Does pattern `w` occur in `s` starting at index `i`?  (Python `s[i:i+len(w)] == w`.) -/
def matchAt (w s : List Char) (i : Nat) : Bool := ((s.drop i).take w.length) == w

/-- Python `str.rfind` bounded search: the greatest index `i ≤ n` at which `w` matches. -/
def rfindFrom (w s : List Char) : Nat → Option Nat
  | 0 => if matchAt w s 0 then some 0 else none
  | n + 1 => if matchAt w s (n + 1) then some (n + 1) else rfindFrom w s n

/-- Python `s.rfind(w)`: index of the last occurrence of `w` in `s`, if any. -/
def rfind (w s : List Char) : Option Nat := rfindFrom w s s.length

/-- Python `w in s` substring containment. -/
def containsSub (w s : List Char) : Bool :=
  (List.range (s.length + 1)).any (matchAt w s)

/-! ## Static configuration (`config.py`) -/

def ASSISTANT_NAME : List Char := "Jarvis".data

/-- `config.py`: the configured wake phrases, in list order. -/
def WAKE_WORDS : List (List Char) :=
  ["hey jarvis".data, "hi jarvis".data, "ok jarvis".data, "okay jarvis".data]

def SR_DYNAMIC_ENERGY : Bool := true

def SR_ENERGY_THRESHOLD : Int := 300

def SR_MAX_TIMEOUTS_BEFORE_TEXT : Nat := 6

/-! ## Wake-word extraction (`main.py`, `run_assistant`, lines 508–519) -/

/-- The wake word selected by `for w in WAKE_WORDS: if w in text: wake_used = w`:
the last entry of `WAKE_WORDS` (in list order) occurring in `text`. -/
def findWake (text : List Char) : Option (List Char) :=
  WAKE_WORDS.foldl (fun acc w => if containsSub w text then some w else acc) none

/-- `last_idx = text.rfind(wake_used)` followed by
`trailing = text[last_idx + len(wake_used):].strip() if last_idx >= 0 else ""`.
Returns `none` when no wake word occurs (the loop `continue`s in that case),
and `some trailing` (possibly empty) otherwise. -/
def extractTrailing (text : List Char) : Option (List Char) :=
  match findWake text with
  | none => none
  | some w =>
    match rfind w text with
    | some i => some (pyStrip (text.drop (i + w.length)))
    | none => some []

/-- The one-shot command that the wake-word loop enqueues from a single captured
utterance `heard` (`text = heard.lower()`); `none` when no wake word is present
or the trailing part is empty (in which case the loop enters the two-step path). -/
def oneShotCommand (heard : List Char) : Option (List Char) :=
  match extractTrailing (pyLower heard) with
  | none => none
  | some t => if t = [] then none else some t

/-! ## `_is_text_mode_command` (`main.py`, lines 448–453) -/

def TEXT_MODE_COMMANDS : List (List Char) :=
  ["switch to typing".data, "switch to text mode".data, "go to text mode".data,
   "typing mode".data, "text mode".data, "stop listening".data, "type mode".data,
   "switch typing".data, "switch typing mode".data]

/-- `s = (s or "").strip().lower()` then membership in the fixed phrase set. -/
def isTextModeCommand (s : List Char) : Bool :=
  TEXT_MODE_COMMANDS.contains (pyLower (pyStrip s))

/-! ## Wake-word loop iteration (`main.py`, `run_assistant`, lines 462–587)

One iteration of the inner voice-mode loop, given the capture events it
consumes: `heard` is the wake-phase capture (`none` = soft miss), and
`followup` is the command-phase capture used only on the bare-wake two-step
path (`none` = soft miss there).  The idle-prompt emission and the
hardware-error handler do not touch the timeout counter and are omitted. -/

structure WakeInput where
  heard : Option (List Char)
  followup : Option (List Char)
deriving DecidableEq

inductive IterOutcome
  | switchText
  | continueLoop (enqueued : Option (List Char))
deriving DecidableEq

/-- One iteration of the wake-word loop: takes the pending switch-to-text
request flag and the current `timeouts_in_a_row` counter, returns the new
counter and the outcome. -/
def wakeIter (switchReq : Bool) (timeouts : Nat) (inp : WakeInput) : Nat × IterOutcome :=
  if switchReq then (timeouts, IterOutcome.switchText)
  else
    match inp.heard with
    | none =>
      let t := timeouts + 1
      if SR_MAX_TIMEOUTS_BEFORE_TEXT ≠ 0 ∧ t ≥ SR_MAX_TIMEOUTS_BEFORE_TEXT then
        (t, IterOutcome.switchText)
      else
        (t, IterOutcome.continueLoop none)
    | some hw =>
      match extractTrailing (pyLower hw) with
      | none => (0, IterOutcome.continueLoop none)
      | some trailing =>
        if trailing ≠ [] then
          if isTextModeCommand trailing then (0, IterOutcome.switchText)
          else (0, IterOutcome.continueLoop (some trailing))
        else
          match inp.followup with
          | none => (0, IterOutcome.continueLoop none)
          | some cmd =>
            if isTextModeCommand cmd then (0, IterOutcome.switchText)
            else (0, IterOutcome.continueLoop (some cmd))

/-- Run the wake-word loop (no pending switch request) over a list of capture
events, stopping when the loop exits to text mode.  Returns the final counter
and the number of switch-to-text transitions issued. -/
def runWake (timeouts : Nat) : List WakeInput → Nat × Nat
  | [] => (timeouts, 0)
  | inp :: rest =>
    match wakeIter false timeouts inp with
    | (t, IterOutcome.switchText) => (t, 1)
    | (t, IterOutcome.continueLoop _) => runWake t rest

/-! ## Speech-output worker (`main.py`, `TTSEngineThread.run`, lines 177–235)

Each fallible collaborator call is represented by a Boolean oracle in
`TTSEnv` (one environment per dequeued message): `psOk` is whether
`_powershell_speak` succeeds, `sapiOk` whether `_fallback_sapi_speak`
succeeds, `createOk` whether `create_tts_engine` succeeds, `speakOk` whether
the primary `engine.say`/`runAndWait` succeeds, and `forcePS` is the
`rt.FORCE_POWERSHELL_TTS` flag read for this message. -/

inductive Tier
  | primary
  | sapi
  | powershell
deriving DecidableEq

structure TTSEnv where
  forcePS : Bool
  psOk : Bool
  sapiOk : Bool
  createOk : Bool
  speakOk : Bool
deriving DecidableEq

structure TTSState where
  engineAlive : Bool
  failCount : Nat
deriving DecidableEq

/-- The observable handling of one message: which tiers were attempted (in
order), whether the message was spoken, and whether the primary engine was
recreated in the failure branch (`fail_count <= 2`). -/
structure MsgResult where
  attempts : List Tier
  spoken : Bool
  recreated : Bool
deriving DecidableEq

/-- The `try: ... engine.say ... except:` block (lines 214–235), entered with a
live engine object.  `pre` carries any attempt already made for this message. -/
def primaryPhase (env : TTSEnv) (fc : Nat) (pre : List Tier) : TTSState × MsgResult :=
  if env.speakOk then
    (⟨true, 0⟩, ⟨pre ++ [Tier.primary], true, false⟩)
  else
    if fc + 1 ≤ 2 then
      (⟨env.createOk, fc + 1⟩, ⟨pre ++ [Tier.primary], false, true⟩)
    else
      if env.sapiOk then
        (⟨true, 0⟩, ⟨pre ++ [Tier.primary, Tier.sapi], true, false⟩)
      else if env.psOk then
        (⟨true, 0⟩, ⟨pre ++ [Tier.primary, Tier.sapi, Tier.powershell], true, false⟩)
      else
        (⟨true, fc + 1⟩, ⟨pre ++ [Tier.primary, Tier.sapi, Tier.powershell], false, false⟩)

/-- The body of the worker loop for one non-sentinel message. -/
def processMsg (env : TTSEnv) (st : TTSState) : TTSState × MsgResult :=
  let pre : List Tier := if env.forcePS then [Tier.powershell] else []
  if env.forcePS && env.psOk then
    (⟨st.engineAlive, 0⟩, ⟨pre, true, false⟩)
  else if st.engineAlive then
    primaryPhase env st.failCount pre
  else if env.createOk then
    primaryPhase env st.failCount pre
  else if env.sapiOk then
    (⟨false, 0⟩, ⟨pre ++ [Tier.sapi], true, false⟩)
  else if env.psOk then
    (⟨false, 0⟩, ⟨pre ++ [Tier.sapi, Tier.powershell], true, false⟩)
  else
    (⟨false, st.failCount⟩, ⟨pre ++ [Tier.sapi, Tier.powershell], false, false⟩)

def EXIT_SENTINEL : List Char := "__EXIT__".data

/-- A message either has a fallback-tier attempt or not. -/
def hasFallback (r : MsgResult) : Prop :=
  Tier.sapi ∈ r.attempts ∨ Tier.powershell ∈ r.attempts

instance (r : MsgResult) : Decidable (hasFallback r) := by
  unfold hasFallback; infer_instance

/-- The worker loop over the sequence of dequeued messages (each with the
environment its collaborator calls see), stopping at the `"__EXIT__"` sentinel. -/
def runTTS : List (List Char × TTSEnv) → TTSState → TTSState × List MsgResult
  | [], st => (st, [])
  | (t, env) :: rest, st =>
    if t = EXIT_SENTINEL then (st, [])
    else
      let s := processMsg env st
      let s2 := runTTS rest s.1
      (s2.1, s.2 :: s2.2)

/-! ## Command-dispatch worker (`main.py`, `worker`, lines 422–432) -/

inductive WorkerExit
  | sentinel
  | processExit
  | drained
deriving DecidableEq

/-- The dispatch worker over the sequence of dequeued commands: returns the
list of commands the handler is invoked on, in invocation order, and how the
loop ended.  `handler c = true` models `handle_command` returning `should_exit`. -/
def cmdWorker (handler : List Char → Bool) : List (List Char) → List (List Char) × WorkerExit
  | [] => ([], WorkerExit.drained)
  | c :: rest =>
    if c = EXIT_SENTINEL then ([], WorkerExit.sentinel)
    else if handler c then ([c], WorkerExit.processExit)
    else
      let s := cmdWorker handler rest
      (c :: s.1, s.2)

/-! ## Reminder store (`database.py`) -/

structure Reminder where
  id : Nat
  text : List Char
  time_utc : Nat
  created_at : Nat
  done : Bool
deriving DecidableEq

/-- The `reminders` table, in insertion (rowid) order. -/
abbrev Store := List Reminder

/-- SQLite `INTEGER PRIMARY KEY AUTOINCREMENT`: the next rowid is larger than
every existing one. -/
def nextId (store : Store) : Nat := (store.map Reminder.id).foldr max 0 + 1

/-- `add_reminder(text, when_epoch_utc)` with `now = int(time.time())`;
returns `cur.lastrowid` and the updated table. -/
def add_reminder (text : List Char) (when_epoch_utc : Nat) (now : Nat) (store : Store) :
    Nat × Store :=
  (nextId store, store ++ [⟨nextId store, text, when_epoch_utc, now, false⟩])

/-- `now_epoch = now_epoch or int(time.time())`: Python `or` makes both `None`
and `0` fall back to the current clock reading. -/
def effectiveNow (now_epoch : Option Nat) (clock : Nat) : Nat :=
  match now_epoch with
  | none => clock
  | some n => if n = 0 then clock else n

/-- The `WHERE done=0 AND time_utc <= ?` filter, in table order. -/
def dueFilter (now : Nat) (store : Store) : Store :=
  store.filter (fun r => !r.done && decide (r.time_utc ≤ now))

instance timeLEDecidable :
    DecidableRel (fun a b : Reminder => a.time_utc ≤ b.time_utc) :=
  fun a b => Nat.decLe a.time_utc b.time_utc

instance timeLETotal : IsTotal Reminder (fun a b => a.time_utc ≤ b.time_utc) :=
  ⟨fun a b => Nat.le_total a.time_utc b.time_utc⟩

instance timeLETrans : IsTrans Reminder (fun a b => a.time_utc ≤ b.time_utc) :=
  ⟨fun _ _ _ h1 h2 => Nat.le_trans h1 h2⟩

/-- `get_due_reminders(now_epoch)`: rows with `done=0 AND time_utc <= now`,
`ORDER BY time_utc ASC`, projected to `(id, text, time_utc)`.  `clock` is the
value `int(time.time())` would produce during the call. -/
def get_due_reminders (now_epoch : Option Nat) (clock : Nat) (store : Store) :
    List (Nat × List Char × Nat) :=
  (List.insertionSort (fun a b => a.time_utc ≤ b.time_utc)
      (dueFilter (effectiveNow now_epoch clock) store)).map
    (fun r => (r.id, r.text, r.time_utc))

/-- `UPDATE reminders SET done=1 WHERE id=?`. -/
def mark_reminder_done (rid : Nat) (store : Store) : Store :=
  store.map (fun r => if r.id = rid then { r with done := true } else r)

/-- One tick of `reminder_thread` (`main.py`, lines 330–339): fetch the due
list once, announce each entry, and mark each done.  Returns the updated
table and the announcements in speaking order. -/
def reminder_tick (clock : Nat) (store : Store) : Store × List (List Char) :=
  ((get_due_reminders (some clock) clock store).foldl
      (fun st p => mark_reminder_done p.1 st) store,
   (get_due_reminders (some clock) clock store).map
      (fun p => "Reminder: ".data ++ p.2.1))

/-! ## Runtime recognition overrides (`runtime_control.py`, `main.py` 368–381) -/

structure RtOverrides where
  SR_DYNAMIC_ENERGY_OVERRIDE : Option Bool := none
  SR_ENERGY_THRESHOLD_OVERRIDE : Option Int := none
deriving DecidableEq

def rtDefault : RtOverrides := {}

def set_sr_dynamic_energy (flag : Option Bool) (rt : RtOverrides) : RtOverrides :=
  { rt with SR_DYNAMIC_ENERGY_OVERRIDE := flag }

def set_sr_energy_threshold (v : Option Int) (rt : RtOverrides) : RtOverrides :=
  { rt with SR_ENERGY_THRESHOLD_OVERRIDE := v }

/-- The recognizer fields `run_assistant` configures: `energy_threshold` is
`none` when the code leaves it untouched (dynamic mode). -/
structure RecognizerConfig where
  dynamic_energy_threshold : Bool
  energy_threshold : Option Int
deriving DecidableEq

/-- `main.py`, lines 370–374: resolve each recognizer setting from the runtime
override when present, else from the static configuration; the fixed energy
threshold is applied only when the dynamic flag resolves to false. -/
def configureRecognizer (rt : RtOverrides) : RecognizerConfig :=
  let dyn :=
    match rt.SR_DYNAMIC_ENERGY_OVERRIDE with
    | some b => b
    | none => SR_DYNAMIC_ENERGY
  ⟨dyn,
    if dyn then none
    else some
      (match rt.SR_ENERGY_THRESHOLD_OVERRIDE with
       | some v => v
       | none => SR_ENERGY_THRESHOLD)⟩

/-! ## Lemmas about the string operations -/

theorem matchAt_le_length {w s : List Char} {i : Nat} (hw : w ≠ [])
    (h : matchAt w s i = true) : i ≤ s.length := by
  by_contra hgt
  have hd : s.drop i = [] := List.drop_eq_nil_of_le (Nat.le_of_not_le hgt)
  rw [matchAt, hd] at h
  simp at h
  exact hw h

theorem rfindFrom_eq_some {w s : List Char} {i : Nat} :
    ∀ n, i ≤ n → matchAt w s i = true →
      (∀ j, j ≤ n → matchAt w s j = true → j ≤ i) →
      rfindFrom w s n = some i := by
  intro n
  induction n with
  | zero =>
    intro hi hm _
    have : i = 0 := Nat.le_zero.1 hi
    subst this
    simp [rfindFrom, hm]
  | succ n ih =>
    intro hi hm hmax
    by_cases h : matchAt w s (n + 1) = true
    · have h1 : n + 1 ≤ i := hmax (n + 1) le_rfl h
      have h2 : i = n + 1 := Nat.le_antisymm hi h1
      subst h2
      simp [rfindFrom, h]
    · have hne : i ≠ n + 1 := by
        intro he
        exact h (he ▸ hm)
      have hle : i ≤ n := Nat.lt_succ_iff.1 (Nat.lt_of_le_of_ne hi hne)
      have hrec := ih hle hm (fun j hj hmj => hmax j (Nat.le_trans hj (Nat.le_succ n)) hmj)
      simpa [rfindFrom, h] using hrec

theorem rfind_eq_some {w s : List Char} {i : Nat} (hw : w ≠ [])
    (hm : matchAt w s i = true)
    (hmax : ∀ j, j ≤ s.length → matchAt w s j = true → j ≤ i) :
    rfind w s = some i :=
  rfindFrom_eq_some s.length (matchAt_le_length hw hm) hm hmax

theorem findWake_of_unique {text w : List Char} (hw : w ∈ WAKE_WORDS)
    (hin : containsSub w text = true)
    (huniq : ∀ w2 ∈ WAKE_WORDS, containsSub w2 text = true → w2 = w) :
    findWake text = some w := by
  have hother : ∀ w2 ∈ WAKE_WORDS, w2 ≠ w → containsSub w2 text = false := by
    intro w2 hmem hne
    by_contra hc
    exact hne (huniq w2 hmem (by revert hc; cases containsSub w2 text <;> simp))
  simp only [WAKE_WORDS, List.mem_cons, List.not_mem_nil, or_false] at hw
  rcases hw with rfl | rfl | rfl | rfl <;>
  · simp only [findWake, WAKE_WORDS, List.foldl_cons, List.foldl_nil]
    rw [hin]
    repeat rw [hother _ (by simp [WAKE_WORDS]) (by decide)]
    simp

/-- C1: for a captured text in which exactly one configured wake phrase occurs
(case-insensitively) and the text after its last occurrence strips to a
non-empty command, the wake-word loop's one-shot extraction yields exactly the
stripped substring after that last occurrence.  (`i` is the last occurrence:
a match position dominating every match position.) -/
theorem wake_trailing_last_occurrence (heard w : List Char) (i : Nat)
    (hw : w ∈ WAKE_WORDS)
    (hin : containsSub w (pyLower heard) = true)
    (huniq : ∀ w2 ∈ WAKE_WORDS, containsSub w2 (pyLower heard) = true → w2 = w)
    (hmatch : matchAt w (pyLower heard) i = true)
    (hlast : ∀ j, j ≤ (pyLower heard).length → matchAt w (pyLower heard) j = true → j ≤ i)
    (hne : pyStrip ((pyLower heard).drop (i + w.length)) ≠ []) :
    oneShotCommand heard = some (pyStrip ((pyLower heard).drop (i + w.length))) := by
  have hwne : w ≠ [] := by
    simp only [WAKE_WORDS, List.mem_cons, List.not_mem_nil, or_false] at hw
    rcases hw with rfl | rfl | rfl | rfl <;> decide
  have hf : findWake (pyLower heard) = some w := findWake_of_unique hw hin huniq
  have hr : rfind w (pyLower heard) = some i := rfind_eq_some hwne hmatch hlast
  simp only [oneShotCommand, extractTrailing, hf, hr]
  simp [hne]

/-- Witness for C1 at the spec's scenario text. -/
theorem wake_trailing_last_occurrence_witness :
    "hey jarvis".data ∈ WAKE_WORDS
    ∧ oneShotCommand "hey jarvis hey jarvis what time is it".data
        = some "what time is it".data := by
  constructor
  · decide
  · have h := wake_trailing_last_occurrence
      "hey jarvis hey jarvis what time is it".data "hey jarvis".data 11
      (by decide) (by decide) (by decide) (by decide) (by decide) (by decide)
    have he : pyStrip (((pyLower "hey jarvis hey jarvis what time is it".data)).drop
        (11 + "hey jarvis".data.length)) = "what time is it".data := by decide
    rw [he] at h
    exact h

/-- C4: in the wake-word loop, six consecutive soft misses from a zero counter
issue the switch to text mode exactly once (the loop exits there); any
successful capture resets the consecutive-miss counter to zero; and a soft
miss in the follow-up command-listening phase after a bare wake word leaves
the counter at zero rather than incrementing it. -/
theorem wake_timeout_threshold :
    (∀ rest : List WakeInput,
        runWake 0 (List.replicate SR_MAX_TIMEOUTS_BEFORE_TEXT ⟨none, none⟩ ++ rest) = (6, 1))
    ∧ (∀ t : Nat, ∀ inp : WakeInput, inp.heard ≠ none → (wakeIter false t inp).1 = 0)
    ∧ (∀ t : Nat, ∀ hw : List Char, extractTrailing (pyLower hw) = some [] →
        wakeIter false t ⟨some hw, none⟩ = (0, IterOutcome.continueLoop none)) := by
  refine ⟨?_, ?_, ?_⟩
  · intro rest
    simp [SR_MAX_TIMEOUTS_BEFORE_TEXT, List.replicate, runWake, wakeIter]
  · intro t inp h
    rcases inp with ⟨heard, followup⟩
    rcases heard with _ | hw
    · simp at h
    · simp only [wakeIter, Bool.false_eq_true, if_neg, ite_false]
      rcases he : extractTrailing (pyLower hw) with _ | trailing
      · simp
      · by_cases ht : trailing = []
        · subst ht
          rcases followup with _ | cmd
          · simp
          · by_cases hc : isTextModeCommand cmd = true <;> simp [hc]
        · by_cases hc : isTextModeCommand trailing = true <;> simp [ht, hc]
  · intro t hw he
    simp [wakeIter, he]

/-- Witness for C4: six misses then a successful capture; the switch fires
once, and a bare-wake utterance with a missed follow-up keeps the counter at 0. -/
theorem wake_timeout_threshold_witness :
    runWake 0 (List.replicate SR_MAX_TIMEOUTS_BEFORE_TEXT ⟨none, none⟩
        ++ [⟨some "hey jarvis what time is it".data, none⟩]) = (6, 1)
    ∧ (wakeIter false 3 ⟨some "hey jarvis what time is it".data, none⟩).1 = 0
    ∧ wakeIter false 3 ⟨some "hey jarvis".data, none⟩ = (0, IterOutcome.continueLoop none) :=
  ⟨wake_timeout_threshold.1 _,
   wake_timeout_threshold.2.1 3 _ (by decide),
   wake_timeout_threshold.2.2 3 _ (by decide)⟩

/-- C5: the command-dispatch worker invokes the handler on enqueued commands
strictly in FIFO order (the invocation list equals the submitted list), and a
dequeued sentinel stops the worker without invoking the handler on it or on
any later message.  Sequencing is structural: the recursion does not dequeue
the next command until the handler application for the current one has
returned its value. -/
theorem cmd_worker_fifo (handler : List Char → Bool) (cmds later : List (List Char))
    (hs : ∀ c ∈ cmds, c ≠ EXIT_SENTINEL)
    (hx : ∀ c ∈ cmds, handler c = false) :
    cmdWorker handler (cmds ++ EXIT_SENTINEL :: later) = (cmds, WorkerExit.sentinel) := by
  induction cmds with
  | nil => simp [cmdWorker]
  | cons c rest ih =>
    have h1 : c ≠ EXIT_SENTINEL := hs c (by simp)
    have h2 : handler c = false := hx c (by simp)
    have h3 := ih (fun d hd => hs d (by simp [hd])) (fun d hd => hx d (by simp [hd]))
    simp [cmdWorker, h1, h2, h3]

/-- Witness for C5: commands `["a","b","c"]`, then the sentinel, then another
message; the handler runs on exactly `a`, `b`, `c` in order. -/
theorem cmd_worker_fifo_witness :
    cmdWorker (fun _ => false) (["a".data, "b".data, "c".data] ++ EXIT_SENTINEL :: ["d".data])
      = (["a".data, "b".data, "c".data], WorkerExit.sentinel) :=
  cmd_worker_fifo (fun _ => false) ["a".data, "b".data, "c".data] ["d".data]
    (by decide) (by decide)

/-! ## Lemmas about the speech-output worker -/

theorem primaryPhase_primary_mem (env : TTSEnv) (fc : Nat) (pre : List Tier) :
    Tier.primary ∈ (primaryPhase env fc pre).2.attempts := by
  unfold primaryPhase
  split_ifs <;> simp

theorem processMsg_attempts_ne (env : TTSEnv) (st : TTSState) :
    (processMsg env st).2.attempts ≠ [] := by
  rcases env with ⟨fps, ps, sap, cr, spk⟩
  rcases st with ⟨al, fc⟩
  cases fps <;> cases ps <;> cases sap <;> cases cr <;> cases spk <;> cases al <;>
    simp only [processMsg, primaryPhase] <;> split_ifs <;> simp_all

theorem processMsg_fail_policy (env : TTSEnv) (st : TTSState)
    (hfp : env.forcePS = false) (hsk : env.speakOk = false) :
    (processMsg env st).2.recreated = true ∨ hasFallback (processMsg env st).2 := by
  rcases env with ⟨fps, ps, sap, cr, spk⟩
  rcases st with ⟨al, fc⟩
  simp only at hfp hsk
  subst hfp hsk
  cases ps <;> cases sap <;> cases cr <;> cases al <;>
    simp only [processMsg, primaryPhase, hasFallback] <;> split_ifs <;> simp_all

/-- C2 counterexample: with a live primary engine and a fresh failure counter,
a message whose primary speak attempt fails is dropped with no secondary
(direct-SAPI) or external (PowerShell) attempt at all — the worker only
recreates the engine.  This refutes "each message still gets an attempt via
the secondary direct-engine fallback and/or the external OS speech command". -/
theorem tts_fallback_counterexample :
    (runTTS [("hello".data, ⟨false, false, false, true, false⟩)] ⟨true, 0⟩).2
      = [⟨[Tier.primary], false, true⟩]
    ∧ ¬ (∀ r ∈ (runTTS [("hello".data, ⟨false, false, false, true, false⟩)] ⟨true, 0⟩).2,
          hasFallback r) := by
  constructor
  · decide
  · intro h
    have := h ⟨[Tier.primary], false, true⟩ (by decide)
    revert this
    decide

/-- C2 (amended): the worker never terminates on a synthesis failure — with the
forced-PowerShell flag off and the primary speak failing on every message, it
still processes the entire message sequence (one result per message), every
message receives at least one speak attempt, and each message either triggers
a primary-engine recreation (failure counter still at or below two) or gets
secondary and/or external fallback attempts. -/
theorem tts_worker_resilient (msgs : List (List Char × TTSEnv)) (st : TTSState)
    (hs : ∀ p ∈ msgs, p.1 ≠ EXIT_SENTINEL)
    (hf : ∀ p ∈ msgs, p.2.forcePS = false ∧ p.2.speakOk = false) :
    (runTTS msgs st).2.length = msgs.length
    ∧ (∀ r ∈ (runTTS msgs st).2, r.attempts ≠ [])
    ∧ (∀ r ∈ (runTTS msgs st).2, r.recreated = true ∨ hasFallback r) := by
  induction msgs generalizing st with
  | nil => simp [runTTS]
  | cons p rest ih =>
    rcases p with ⟨t, env⟩
    have ht : t ≠ EXIT_SENTINEL := hs (t, env) (by simp)
    have henv := hf (t, env) (by simp)
    have hrec := ih (processMsg env st).1
      (fun d hd => hs d (by simp [hd]))
      (fun d hd => hf d (by simp [hd]))
    simp only [runTTS, if_neg ht]
    refine ⟨by simpa using hrec.1, ?_, ?_⟩
    · intro r hr
      rcases List.mem_cons.1 hr with rfl | hr2
      · exact processMsg_attempts_ne env st
      · exact hrec.2.1 r hr2
    · intro r hr
      rcases List.mem_cons.1 hr with rfl | hr2
      · exact processMsg_fail_policy env st henv.1 henv.2
      · exact hrec.2.2 r hr2

/-- Witness for the amended C2: three messages whose primary attempts all fail. -/
theorem tts_worker_resilient_witness :
    (runTTS [("a".data, ⟨false, false, false, true, false⟩),
             ("b".data, ⟨false, false, false, true, false⟩),
             ("c".data, ⟨false, false, false, true, false⟩)] ⟨true, 0⟩).2.length = 3
    ∧ (∀ r ∈ (runTTS [("a".data, ⟨false, false, false, true, false⟩),
             ("b".data, ⟨false, false, false, true, false⟩),
             ("c".data, ⟨false, false, false, true, false⟩)] ⟨true, 0⟩).2,
        r.recreated = true ∨ hasFallback r) :=
  ⟨(tts_worker_resilient _ ⟨true, 0⟩ (by decide) (by decide)).1,
   (tts_worker_resilient _ ⟨true, 0⟩ (by decide) (by decide)).2.2⟩

/-- C3: handling of a message whose primary speak attempt fails (live engine,
forced-PowerShell flag off).  The failure counter is incremented; while the
incremented counter is at or below two the worker only recreates the primary
engine (no fallback attempt for this message) so the primary is retried on
the next message; once the incremented counter exceeds two the primary is not
recreated or retried and the worker falls through to the secondary direct
engine and then, if that fails, the external OS speech command. -/
theorem tts_failure_counter_policy (env : TTSEnv) (st : TTSState)
    (hfp : env.forcePS = false) (hsk : env.speakOk = false)
    (hal : st.engineAlive = true) :
    (st.failCount + 1 ≤ 2 →
      (processMsg env st).2.recreated = true
      ∧ (processMsg env st).2.attempts = [Tier.primary]
      ∧ (processMsg env st).1.failCount = st.failCount + 1
      ∧ (processMsg env st).1.engineAlive = env.createOk)
    ∧ (2 < st.failCount + 1 →
      (processMsg env st).2.recreated = false
      ∧ (processMsg env st).2.attempts
          = Tier.primary :: Tier.sapi :: (if env.sapiOk then [] else [Tier.powershell]))
    ∧ (env.createOk = true → ∀ env2 : TTSEnv, env2.forcePS = false →
        Tier.primary ∈ (processMsg env2 (processMsg env st).1).2.attempts) := by
  rcases st with ⟨al, fc⟩
  simp only at hal
  subst hal
  refine ⟨?_, ?_, ?_⟩
  · intro hle
    simp [processMsg, primaryPhase, hfp, hsk, hle]
  · intro hgt
    have hnle : ¬ (fc + 1 ≤ 2) := Nat.not_le.2 hgt
    cases hsap : env.sapiOk <;> cases hps : env.psOk <;>
      simp [processMsg, primaryPhase, hfp, hsk, hnle, hsap, hps]
  · intro hcr env2 hfp2
    have hal2 : (processMsg env ⟨true, fc⟩).1.engineAlive = true := by
      by_cases hle : fc + 1 ≤ 2 <;>
        cases hsap : env.sapiOk <;> cases hps : env.psOk <;>
          simp [processMsg, primaryPhase, hfp, hsk, hle, hcr, hsap, hps]
    have hnf : (env2.forcePS && env2.psOk) = false := by simp [hfp2]
    rcases hst : processMsg env ⟨true, fc⟩ with ⟨st2, r2⟩
    rw [hst] at hal2
    simp only at hal2
    simp only [processMsg, hnf, Bool.false_eq_true, if_neg, ite_false, hal2, ite_true]
    exact primaryPhase_primary_mem env2 st2.failCount _

/-- Witness for C3: a first failure (counter 1, engine recreated, no fallback)
and a third failure (counter 3, no recreation, fall through to both fallbacks). -/
theorem tts_failure_counter_policy_witness :
    ((processMsg ⟨false, false, false, true, false⟩ ⟨true, 0⟩).2.recreated = true
      ∧ (processMsg ⟨false, false, false, true, false⟩ ⟨true, 0⟩).2.attempts = [Tier.primary]
      ∧ (processMsg ⟨false, false, false, true, false⟩ ⟨true, 0⟩).1.failCount = 1
      ∧ (processMsg ⟨false, false, false, true, false⟩ ⟨true, 0⟩).1.engineAlive = true)
    ∧ ((processMsg ⟨false, false, false, true, false⟩ ⟨true, 2⟩).2.recreated = false
      ∧ (processMsg ⟨false, false, false, true, false⟩ ⟨true, 2⟩).2.attempts
          = Tier.primary :: Tier.sapi :: [Tier.powershell]) := by
  constructor
  · exact (tts_failure_counter_policy ⟨false, false, false, true, false⟩ ⟨true, 0⟩
      rfl rfl rfl).1 (by decide)
  · have h := (tts_failure_counter_policy ⟨false, false, false, true, false⟩ ⟨true, 2⟩
      rfl rfl rfl).2.1 (by decide)
    simpa using h

/-! ## Lemmas about the reminder store -/

theorem effectiveNow_self (clock : Nat) : effectiveNow (some clock) clock = clock := by
  simp [effectiveNow]

theorem mem_get_due (ne : Option Nat) (clock : Nat) (store : Store)
    (t : Nat × List Char × Nat) :
    t ∈ get_due_reminders ne clock store ↔
      ∃ r ∈ store, r.done = false ∧ r.time_utc ≤ effectiveNow ne clock
        ∧ t = (r.id, r.text, r.time_utc) := by
  unfold get_due_reminders dueFilter
  rw [List.mem_map]
  constructor
  · rintro ⟨r, hr, rfl⟩
    have hr2 := (List.mem_insertionSort _).1 hr
    rw [List.mem_filter] at hr2
    have hp := hr2.2
    simp only [Bool.and_eq_true, Bool.not_eq_true', decide_eq_true_eq] at hp
    exact ⟨r, hr2.1, hp.1, hp.2, rfl⟩
  · rintro ⟨r, hr, hd, ht, rfl⟩
    refine ⟨r, (List.mem_insertionSort _).2 (List.mem_filter.2 ⟨hr, ?_⟩), rfl⟩
    simp [hd, ht]

theorem get_due_sorted (ne : Option Nat) (clock : Nat) (store : Store) :
    List.Pairwise (fun a b : Nat × List Char × Nat => a.2.2 ≤ b.2.2)
      (get_due_reminders ne clock store) := by
  unfold get_due_reminders
  exact (List.sorted_insertionSort _ _).map _ (fun a b hab => hab)

theorem mark_foldl_eq (ids : List Nat) (store : Store) :
    ids.foldl (fun st i => mark_reminder_done i st) store
      = store.map (fun r => if r.id ∈ ids then { r with done := true } else r) := by
  induction ids generalizing store with
  | nil => simp
  | cons i rest ih =>
    rw [List.foldl_cons, ih]
    unfold mark_reminder_done
    rw [List.map_map]
    congr 1
    funext r
    by_cases h1 : r.id = i <;> by_cases h2 : r.id ∈ rest <;>
      simp [Function.comp, h1, h2]

theorem tick_store_eq (clock : Nat) (store : Store) :
    (reminder_tick clock store).1
      = store.map (fun r =>
          if r.id ∈ (get_due_reminders (some clock) clock store).map Prod.fst
          then { r with done := true } else r) := by
  have hfm : ((get_due_reminders (some clock) clock store).map Prod.fst).foldl
        (fun st i => mark_reminder_done i st) store
      = (get_due_reminders (some clock) clock store).foldl
        (fun st p => mark_reminder_done p.1 st) store := List.foldl_map _ _ _ _
  have hbody : (reminder_tick clock store).1
      = (get_due_reminders (some clock) clock store).foldl
        (fun st p => mark_reminder_done p.1 st) store := rfl
  rw [hbody, ← hfm]
  exact mark_foldl_eq _ store

theorem due_id_mem (clock : Nat) (store : Store) (r : Reminder) (hr : r ∈ store)
    (hd : r.done = false) (ht : r.time_utc ≤ clock) :
    r.id ∈ (get_due_reminders (some clock) clock store).map Prod.fst := by
  have hm : (r.id, r.text, r.time_utc) ∈ get_due_reminders (some clock) clock store :=
    (mem_get_due _ _ _ _).2 ⟨r, hr, hd, by rwa [effectiveNow_self], rfl⟩
  exact List.mem_map.2 ⟨_, hm, rfl⟩

theorem tick_no_due (clock : Nat) (store : Store) :
    dueFilter clock (reminder_tick clock store).1 = [] := by
  rw [tick_store_eq]
  apply List.filter_eq_nil_iff.2
  intro r2 hm
  rw [List.mem_map] at hm
  obtain ⟨r, hr, rfl⟩ := hm
  by_cases hid : r.id ∈ (get_due_reminders (some clock) clock store).map Prod.fst
  · simp [hid]
  · simp only [hid, ite_false, if_neg]
    by_cases hd : r.done
    · simp [hd]
    · by_cases ht : r.time_utc ≤ clock
      · exact absurd (due_id_mem clock store r hr (by simpa using hd) ht) hid
      · simp [ht]

theorem get_due_tick_nil (clock : Nat) (store : Store) :
    get_due_reminders (some clock) clock (reminder_tick clock store).1 = [] := by
  unfold get_due_reminders
  rw [effectiveNow_self, tick_no_due]
  rfl

/-- C6: each reminder tick fetches exactly the rows with `done = false` and
`time_utc ≤ now`, in ascending due-time order; announces exactly those rows
(in that order); after the tick every still-undone row is not yet due; and a
second tick at the same instant announces nothing. -/
theorem reminder_scan_correct (clock : Nat) (store : Store) :
    (∀ t, t ∈ get_due_reminders (some clock) clock store ↔
        ∃ r ∈ store, r.done = false ∧ r.time_utc ≤ clock ∧ t = (r.id, r.text, r.time_utc))
    ∧ List.Pairwise (fun a b : Nat × List Char × Nat => a.2.2 ≤ b.2.2)
        (get_due_reminders (some clock) clock store)
    ∧ (reminder_tick clock store).2
        = (get_due_reminders (some clock) clock store).map
            (fun p => "Reminder: ".data ++ p.2.1)
    ∧ (∀ r ∈ (reminder_tick clock store).1, r.done = false → ¬ r.time_utc ≤ clock)
    ∧ (reminder_tick clock (reminder_tick clock store).1).2 = [] := by
  refine ⟨?_, get_due_sorted _ _ _, rfl, ?_, ?_⟩
  · intro t
    rw [mem_get_due, effectiveNow_self]
  · intro r hr hd ht
    have h0 : r ∈ dueFilter clock (reminder_tick clock store).1 :=
      List.mem_filter.2 ⟨hr, by simp [hd, ht]⟩
    rw [tick_no_due] at h0
    exact absurd h0 (List.not_mem_nil r)
  · have hsnd : (reminder_tick clock (reminder_tick clock store).1).2
        = (get_due_reminders (some clock) clock (reminder_tick clock store).1).map
            (fun p => "Reminder: ".data ++ p.2.1) := rfl
    rw [hsnd, get_due_tick_nil]
    rfl

/-- Witness for C6 on the spec's scenario: one due, not-done reminder; the
first tick announces it, the second announces nothing. -/
theorem reminder_scan_correct_witness :
    (reminder_tick 10 [⟨1, "buy milk".data, 5, 0, false⟩]).2
        = ["Reminder: buy milk".data]
    ∧ (reminder_tick 10 (reminder_tick 10 [⟨1, "buy milk".data, 5, 0, false⟩]).1).2 = [] :=
  ⟨by decide, (reminder_scan_correct 10 [⟨1, "buy milk".data, 5, 0, false⟩]).2.2.2.2⟩

/-- C7: `add_reminder(text, T)` makes `get_due_reminders(T)` return the entry
`(id, text, T)` for the returned id, and after `mark_reminder_done(id)` that
entry is no longer returned. -/
theorem reminder_roundtrip (text : List Char) (T now clock : Nat) (store : Store) :
    ((add_reminder text T now store).1, text, T)
        ∈ get_due_reminders (some T) clock (add_reminder text T now store).2
    ∧ ((add_reminder text T now store).1, text, T)
        ∉ get_due_reminders (some T) clock
            (mark_reminder_done (add_reminder text T now store).1
              (add_reminder text T now store).2) := by
  constructor
  · apply (mem_get_due _ _ _ _).2
    refine ⟨⟨nextId store, text, T, now, false⟩, ?_, rfl, ?_, rfl⟩
    · simp [add_reminder]
    · unfold effectiveNow
      by_cases hT : T = 0
      · simp [hT]
      · simp [hT]
  · intro hmem
    obtain ⟨r, hr, hd, _, heq⟩ := (mem_get_due _ _ _ _).1 hmem
    have hid : r.id = (add_reminder text T now store).1 := by
      have := congrArg Prod.fst heq
      simpa using this.symm
    unfold mark_reminder_done at hr
    rw [List.mem_map] at hr
    obtain ⟨r0, _, hfr⟩ := hr
    by_cases h0 : r0.id = (add_reminder text T now store).1
    · rw [if_pos h0] at hfr
      rw [← hfr] at hd
      simp at hd
    · rw [if_neg h0] at hfr
      rw [← hfr] at hid
      exact h0 hid

/-- Witness for C7 at the spec's scenario values. -/
theorem reminder_roundtrip_witness :
    ((add_reminder "buy milk".data 5 0 []).1, "buy milk".data, 5)
        ∈ get_due_reminders (some 5) 9 (add_reminder "buy milk".data 5 0 []).2
    ∧ ((add_reminder "buy milk".data 5 0 []).1, "buy milk".data, 5)
        ∉ get_due_reminders (some 5) 9
            (mark_reminder_done (add_reminder "buy milk".data 5 0 []).1
              (add_reminder "buy milk".data 5 0 []).2) :=
  reminder_roundtrip "buy milk".data 5 0 9 []

/-- C9: because of the Python `or`, a `now_epoch` of `0` (like `None`) falls
back to the current clock reading, so `get_due_reminders(0)` behaves exactly
like a query at the present moment rather than selecting reminders due at or
before epoch 0. -/
theorem get_due_zero_epoch (clock : Nat) (store : Store) :
    get_due_reminders (some 0) clock store = get_due_reminders none clock store
    ∧ get_due_reminders (some 0) clock store = get_due_reminders (some clock) clock store
    ∧ effectiveNow (some 0) clock = clock := by
  refine ⟨rfl, ?_, rfl⟩
  unfold get_due_reminders
  simp [effectiveNow]

/-- Witness for C9: a reminder due at epoch 5 with the clock at 10 is returned
by `get_due_reminders(0)`, which is not the at-or-before-epoch-0 selection. -/
theorem get_due_zero_epoch_witness :
    get_due_reminders (some 0) 10 [⟨1, "buy milk".data, 5, 0, false⟩]
        = get_due_reminders (some 10) 10 [⟨1, "buy milk".data, 5, 0, false⟩]
    ∧ get_due_reminders (some 0) 10 [⟨1, "buy milk".data, 5, 0, false⟩]
        = [(1, "buy milk".data, 5)] :=
  ⟨(get_due_zero_epoch 10 [⟨1, "buy milk".data, 5, 0, false⟩]).2.1, by decide⟩

/-- C10: `mark_reminder_done(id)` preserves the table length; rewrites each row
in place, setting only `done := true` on rows whose id matches and leaving
non-matching rows untouched; never changes any row's `text`, `time_utc`,
`created_at`, or `id`; and is the identity (returning normally) when no row
has the given id. -/
theorem mark_done_frame (rid : Nat) (store : Store) :
    (mark_reminder_done rid store).length = store.length
    ∧ (∀ i : Nat, (mark_reminder_done rid store)[i]?
        = store[i]?.map (fun r => if r.id = rid then { r with done := true } else r))
    ∧ (∀ r ∈ mark_reminder_done rid store, ∃ r0 ∈ store,
        r.id = r0.id ∧ r.text = r0.text ∧ r.time_utc = r0.time_utc
          ∧ r.created_at = r0.created_at)
    ∧ ((∀ r ∈ store, r.id ≠ rid) → mark_reminder_done rid store = store) := by
  refine ⟨List.length_map _ _, ?_, ?_, ?_⟩
  · intro i
    unfold mark_reminder_done
    exact List.getElem?_map _ _ _
  · intro r hr
    rw [mark_reminder_done, List.mem_map] at hr
    obtain ⟨r0, h0, hfr⟩ := hr
    refine ⟨r0, h0, ?_⟩
    by_cases h : r0.id = rid <;> simp [h] at hfr <;> rw [← hfr] <;> simp [h]
  · intro h
    unfold mark_reminder_done
    induction store with
    | nil => rfl
    | cons a l ih =>
      have ha : a.id ≠ rid := h a (by simp)
      simp only [List.map_cons, if_neg ha]
      rw [ih (fun r hr => h r (by simp [hr]))]

/-- Witness for C10: marking an absent id leaves the table unchanged, and
marking a present id only flips its `done` flag. -/
theorem mark_done_frame_witness :
    mark_reminder_done 2 [⟨1, "buy milk".data, 5, 0, false⟩]
        = [⟨1, "buy milk".data, 5, 0, false⟩]
    ∧ (mark_reminder_done 1 [⟨1, "buy milk".data, 5, 0, false⟩])[0]?
        = some ⟨1, "buy milk".data, 5, 0, true⟩ :=
  ⟨(mark_done_frame 2 [⟨1, "buy milk".data, 5, 0, false⟩]).2.2.2 (by decide),
   by decide⟩

/-- C8: with the dynamic-sensitivity override set to `false` and the
energy-threshold override set to `450` before the recognizer is configured,
the effective configuration uses the fixed threshold 450; in general every
explicitly-set (non-`none`) override field takes precedence over the static
configuration value. -/
theorem config_override_precedence :
    configureRecognizer (set_sr_energy_threshold (some 450)
        (set_sr_dynamic_energy (some false) rtDefault))
      = ⟨false, some 450⟩
    ∧ (∀ rt : RtOverrides, ∀ b : Bool, rt.SR_DYNAMIC_ENERGY_OVERRIDE = some b →
        (configureRecognizer rt).dynamic_energy_threshold = b)
    ∧ (∀ rt : RtOverrides, ∀ v : Int, rt.SR_DYNAMIC_ENERGY_OVERRIDE = some false →
        rt.SR_ENERGY_THRESHOLD_OVERRIDE = some v →
        (configureRecognizer rt).energy_threshold = some v) := by
  refine ⟨by decide, ?_, ?_⟩
  · intro rt b h
    simp [configureRecognizer, h]
  · intro rt v h1 h2
    simp [configureRecognizer, h1, h2]

/-- Witness for C8: the overrides of the spec's scenario resolve to the fixed
threshold 450. -/
theorem config_override_precedence_witness :
    (configureRecognizer ⟨some false, some 450⟩).dynamic_energy_threshold = false
    ∧ (configureRecognizer ⟨some false, some 450⟩).energy_threshold = some 450 :=
  ⟨config_override_precedence.2.1 ⟨some false, some 450⟩ false rfl,
   config_override_precedence.2.2 ⟨some false, some 450⟩ 450 rfl rfl⟩
